import Mathlib

set_option maxHeartbeats 1000000

/-!
Shallow embedding of the stock-ledger logic of `src/App.jsx` (feed-management
app).  The Firestore collections (`feeds`, `godownStock`, `trucks`,
`directTransfers`, `logs`) are modelled as lists of records inside a `DB`
value; each mutating handler of the app becomes a pure state-passing function
mirroring the sequence of awaited Firestore writes.  Document ids generated by
`addDoc` are modelled by `freshId`, which returns a number strictly larger
than every id-like value already present (Firestore-generated ids never
collide with existing document ids).  Query results (`getDocs` on a
`where`-filtered query) are ordered by document id, which coincides with list
order here because appended documents always receive larger ids; `docs[0]`
therefore corresponds to `List.find?`.

`submitTruckEntry` loops over its items calling `addOrIncreaseGodown` /
`decreaseGodown`, which read the React state variable `godown` captured by the
handler's closure; `fetchAll`/`setGodown` only affect the next render and never
rebind the running closure, so every per-item call reads the same stale
pre-call snapshot of the ledger and writes an absolute quantity computed from
it.  The embedding models this with snapshot-parameterised operations
(`addOrIncreaseGodownStale`, `decreaseGodownStale`): lookups go to the frozen
`snap`, writes go to the evolving persisted `db`.
-/

namespace FeedApp

/-- One `{feedId, quantity}` line, as used in truck `items`, truck `stock`
and transfer payloads throughout `src/App.jsx`. -/
structure Item where
  feedId : Nat
  quantity : Int
  deriving Repr, DecidableEq

/-- A document of the `feeds` collection: `{id, name, category, price}`. -/
structure Feed where
  id : Nat
  name : String
  category : String
  price : Int
  deriving Repr, DecidableEq

/-- A document of the `godownStock` collection: `{id, feedId, quantity}`. -/
structure StockEntry where
  id : Nat
  feedId : Nat
  quantity : Int
  deriving Repr, DecidableEq

/-- A document of the `trucks` collection.  A truck doc is either an
immutable movement record (`type`/`items` set, no `stock`) or an
onboard-inventory record for direct transfers (`stock` set); absent fields
are `none` / `[]`. -/
structure Truck where
  id : Nat
  truckNumber : String
  type : Option String
  destinations : List String
  items : Option (List Item)
  stock : Option (List Item)
  deriving Repr, DecidableEq

/-- A document of the `directTransfers` collection. -/
structure TransferRec where
  sourceTruckNumber : String
  destTruckNumber : String
  items : List Item
  deriving Repr, DecidableEq

/-- A document of the `logs` collection; payload fields not used by a given
action keep their defaults. -/
structure LogEntry where
  action : String
  truckNumber : String := ""
  type : String := ""
  destinations : List String := []
  sourceTruckNumber : String := ""
  destTruckNumber : String := ""
  items : List Item := []
  deriving Repr, DecidableEq

/-- The whole Firestore state seen by the app. -/
structure DB where
  feeds : List Feed
  godown : List StockEntry
  trucks : List Truck
  transfers : List TransferRec
  logs : List LogEntry
  deriving Repr, DecidableEq

/-- Every id-like value occurring in the store (document ids plus the feed
ids referenced from `godownStock`). -/
def allIds (db : DB) : List Nat :=
  db.feeds.map Feed.id ++ db.godown.map StockEntry.id ++
    db.godown.map StockEntry.feedId ++ db.trucks.map Truck.id

/-- A fresh document id as produced by Firestore `addDoc`: distinct from (and
here, larger than) every id-like value already present. -/
def freshId (db : DB) : Nat :=
  (allIds db).foldr max 0 + 1

/-- `findFeed` of `App.jsx`: `feeds.find(f => f.id === feedId) || null`. -/
def findFeed (db : DB) (feedId : Nat) : Option Feed :=
  db.feeds.find? (fun f => f.id == feedId)

/-- `addOrIncreaseGodown(feedId, qty)` of `App.jsx`: if a `godownStock` doc
for the feed exists, `updateDoc` sets its quantity to `existing.quantity +
qty`; otherwise `addDoc` creates `{feedId, quantity: qty}`. -/
def addOrIncreaseGodown (db : DB) (feedId : Nat) (qty : Int) : DB :=
  match db.godown.find? (fun g => g.feedId == feedId) with
  | some existing =>
      { db with godown :=
          db.godown.map (fun g =>
            if g.id == existing.id then { g with quantity := existing.quantity + qty } else g) }
  | none =>
      { db with godown := db.godown ++ [⟨freshId db, feedId, qty⟩] }

/-- Godown-level body of `decreaseGodown`: `none` models the thrown
`"Not enough godown stock"` error (when no entry exists or
`existing.quantity < qty`); otherwise the matched doc's quantity is set to
`existing.quantity - qty`. -/
def decreaseG (g : List StockEntry) (feedId : Nat) (qty : Int) : Option (List StockEntry) :=
  match g.find? (fun e => e.feedId == feedId) with
  | none => none
  | some existing =>
      if existing.quantity < qty then none
      else some (g.map (fun e =>
        if e.id == existing.id then { e with quantity := existing.quantity - qty } else e))

/-- `decreaseGodown(feedId, qty)` of `App.jsx`: throws (here `Except.error`)
when the stock check fails, else persists the decremented quantity. -/
def decreaseGodown (db : DB) (feedId : Nat) (qty : Int) : Except String DB :=
  match decreaseG db.godown feedId qty with
  | none => .error "Not enough godown stock"
  | some g' => .ok { db with godown := g' }

/-- The per-item `try { await decreaseGodown(...) } catch { ... }` of
`submitTruckEntry`: a failed decrease is skipped and the state kept. -/
def decreaseCaught (db : DB) (feedId : Nat) (qty : Int) : DB :=
  match decreaseGodown db feedId qty with
  | .ok db' => db'
  | .error _ => db

/-- Parsing of the `destinations` field in `submitTruckEntry`: split on
commas, trim, drop empty segments (the empty string yields `[]`, matching
the `destinations ? ... : []` guard). -/
def parseDestinations (s : String) : List String :=
  ((s.splitOn ",").map (fun t => t.trim)).filter (fun t => t != "")

/-- `addOrIncreaseGodown` as invoked from the per-item loop of
`submitTruckEntry`.  The `godown.find` inside the JS function reads the
React state array captured by the running handler's closure — `setGodown`
(called by `fetchAll`) rebinds the state for the *next* render only, never
for the closure already executing.  So every item of one submission reads
the same pre-call snapshot `snap`, and both the branch choice and the
written quantity (`existing.quantity + qty`) come from `snap`, while the
`updateDoc`/`addDoc` write goes to the persisted store `db`. -/
def addOrIncreaseGodownStale (snap : List StockEntry) (db : DB) (feedId : Nat)
    (qty : Int) : DB :=
  match snap.find? (fun g => g.feedId == feedId) with
  | some existing =>
      { db with godown :=
          db.godown.map (fun g =>
            if g.id == existing.id then { g with quantity := existing.quantity + qty } else g) }
  | none =>
      { db with godown := db.godown ++ [⟨freshId db, feedId, qty⟩] }

/-- `decreaseGodown` as invoked from the per-item loop of `submitTruckEntry`:
like `addOrIncreaseGodownStale`, the existence check, the stock check and
the written quantity (`existing.quantity - qty`) all read the stale closure
snapshot `snap`; the write goes to the persisted store. -/
def decreaseGodownStale (snap : List StockEntry) (db : DB) (feedId : Nat)
    (qty : Int) : Except String DB :=
  match snap.find? (fun e => e.feedId == feedId) with
  | none => .error "Not enough godown stock"
  | some existing =>
      if existing.quantity < qty then .error "Not enough godown stock"
      else .ok { db with
        godown := db.godown.map (fun g =>
          if g.id == existing.id then { g with quantity := existing.quantity - qty } else g) }

/-- The per-item `try { await decreaseGodown(...) } catch { ... }` of
`submitTruckEntry`, on the stale snapshot: a failed decrease is skipped. -/
def decreaseCaughtStale (snap : List StockEntry) (db : DB) (feedId : Nat)
    (qty : Int) : DB :=
  match decreaseGodownStale snap db feedId qty with
  | .ok db' => db'
  | .error _ => db

/-- `submitTruckEntry({truckNumber, type, destinations, items})` of
`App.jsx`: rejects empty truck number / items with no write; otherwise adds
the immutable movement doc to `trucks`, then applies the godown updates —
each per-item `addOrIncreaseGodown` / `decreaseGodown` call reading the
godown snapshot the handler's closure captured at entry (see
`addOrIncreaseGodownStale`), with outgoing failures caught per item — then
appends the `"Truck Entry"` log. -/
def submitTruckEntry (db : DB) (truckNumber type destinations : String)
    (items : List Item) : DB :=
  if truckNumber = "" ∨ items = [] then db
  else
    let snap := db.godown
    let movementDoc : Truck :=
      { id := freshId db, truckNumber := truckNumber, type := some type,
        destinations := parseDestinations destinations, items := some items, stock := none }
    let db1 := { db with trucks := db.trucks ++ [movementDoc] }
    let db2 :=
      if type = "incoming" then
        items.foldl (fun d it => addOrIncreaseGodownStale snap d it.feedId it.quantity) db1
      else if type = "outgoing" then
        items.foldl (fun d it => decreaseCaughtStale snap d it.feedId it.quantity) db1
      else db1
    { db2 with logs := db2.logs ++
        [{ action := "Truck Entry", truckNumber := truckNumber, type := type,
           destinations := parseDestinations destinations, items := items }] }

/-- `registerSourceTruckLoad(truckNumber, items)` of `App.jsx`: rejects
empty arguments; otherwise the first truck doc matching the number gets its
`stock` overwritten with the supplied items (`updateDoc` also rewrites
`truckNumber`), or a new truck doc is created; then a
`"Register Truck Load"` log is appended. -/
def registerSourceTruckLoad (db : DB) (truckNumber : String) (items : List Item) : DB :=
  if truckNumber = "" ∨ items = [] then db
  else
    let db1 : DB :=
      match db.trucks.find? (fun t => t.truckNumber == truckNumber) with
      | some t =>
          { db with
            trucks := db.trucks.map (fun u =>
              if u.id == t.id then
                { u with truckNumber := truckNumber, stock := some items }
              else u) }
      | none =>
          { db with
            trucks := db.trucks ++
              [{ id := freshId db, truckNumber := truckNumber, type := none,
                 destinations := [], items := none, stock := some items }] }
    { db1 with logs := db1.logs ++
        [{ action := "Register Truck Load", truckNumber := truckNumber, items := items }] }

/-- First matching entry of an onboard-stock list gets its quantity shifted
by `d` (the in-place `srcStock[sIdx].quantity -= ...` / `destStock[dIdx].quantity += ...`
mutations of `transferFromSourceToDest`). -/
def bumpFirst (feedId : Nat) (d : Int) : List Item → List Item
  | [] => []
  | s :: rest =>
      if s.feedId == feedId then { s with quantity := s.quantity + d } :: rest
      else s :: bumpFirst feedId d rest

/-- Destination-side step of the transfer loop: increment the matching stock
entry if present, else push `{feedId, quantity}`. -/
def addToStock (stock : List Item) (feedId : Nat) (q : Int) : List Item :=
  match stock.find? (fun s => s.feedId == feedId) with
  | some _ => bumpFirst feedId q stock
  | none => stock ++ [⟨feedId, q⟩]

/-- The `for (const item of items)` loop of `transferFromSourceToDest`,
acting on in-memory working copies: aborts (`none`) when an item's feed is
missing from the (already partially decremented) source stock or its
remaining quantity is below the requested amount; otherwise decrements the
source copy and increments/pushes on the destination copy. -/
def processItems : List Item → List Item → List Item → Option (List Item × List Item)
  | srcStock, destStock, [] => some (srcStock, destStock)
  | srcStock, destStock, item :: rest =>
      match srcStock.find? (fun s => s.feedId == item.feedId) with
      | none => none
      | some s =>
          if s.quantity < item.quantity then none
          else
            processItems (bumpFirst item.feedId (-item.quantity) srcStock)
              (addToStock destStock item.feedId item.quantity) rest

/-- The destination stock list the transfer loop starts from: the matched
destination truck's `stock` (with `[]` for a missing field), or `[]` for the
freshly created destination record. -/
def destStock0 (db : DB) (destTruckNumber : String) : List Item :=
  match db.trucks.find? (fun t => t.truckNumber == destTruckNumber) with
  | some t => t.stock.getD []
  | none => []

/-- `transferFromSourceToDest({sourceTruckNumber, destTruckNumber, items})`
of `App.jsx`.  Empty fields: no write.  Source truck missing: no write.
Otherwise the destination truck doc is found or *created (persisted!) with
empty stock before validation*; the item loop runs on working copies and a
failed check aborts with only that possible creation persisted; on success
both stock lists are written back (source first, destination second, by
document id), and one `directTransfers` doc and one `"Direct Transfer"` log
are appended. -/
def transferFromSourceToDest (db : DB) (sourceTruckNumber destTruckNumber : String)
    (items : List Item) : DB :=
  if sourceTruckNumber = "" ∨ destTruckNumber = "" ∨ items = [] then db
  else
    match db.trucks.find? (fun t => t.truckNumber == sourceTruckNumber) with
    | none => db
    | some srcT =>
        let srcStock := srcT.stock.getD []
        let destLookup := db.trucks.find? (fun t => t.truckNumber == destTruckNumber)
        let newDest : Truck :=
          { id := freshId db, truckNumber := destTruckNumber, type := none,
            destinations := [], items := none, stock := some [] }
        let db1 : DB :=
          match destLookup with
          | some _ => db
          | none => { db with trucks := db.trucks ++ [newDest] }
        let destT : Truck :=
          match destLookup with
          | some t => t
          | none => newDest
        let destStock := destT.stock.getD []
        match processItems srcStock destStock items with
        | none => db1
        | some (srcStock', destStock') =>
            let db2 : DB := { db1 with
              trucks := db1.trucks.map (fun t =>
                if t.id == srcT.id then { t with stock := some srcStock' } else t) }
            let db3 : DB := { db2 with
              trucks := db2.trucks.map (fun t =>
                if t.id == destT.id then { t with stock := some destStock' } else t) }
            let db4 : DB := { db3 with
              transfers := db3.transfers ++ [⟨sourceTruckNumber, destTruckNumber, items⟩] }
            { db4 with
              logs := db4.logs ++
                [{ action := "Direct Transfer", sourceTruckNumber := sourceTruckNumber,
                   destTruckNumber := destTruckNumber, items := items }] }

/-- Partial patch applied by `handleEditFeed` via `updateDoc`. -/
structure FeedPatch where
  name : Option String := none
  category : Option String := none
  price : Option Int := none
  deriving Repr, DecidableEq

/-- `handleAddFeed(feedObj, initialQty)` of `App.jsx`: creates the feed doc,
and when `initialQty > 0` also creates a `godownStock` doc referencing the
fresh feed id. -/
def handleAddFeed (db : DB) (name category : String) (price initialQty : Int) : DB :=
  let newFeed : Feed := { id := freshId db, name := name, category := category, price := price }
  let db1 := { db with feeds := db.feeds ++ [newFeed] }
  if 0 < initialQty then
    { db1 with godown := db1.godown ++ [⟨freshId db1, newFeed.id, initialQty⟩] }
  else db1

/-- `handleEditFeed(feedId, patch)` of `App.jsx`: partial field update of the
feed doc with that id. -/
def handleEditFeed (db : DB) (feedId : Nat) (patch : FeedPatch) : DB :=
  { db with feeds :=
      db.feeds.map (fun f =>
        if f.id == feedId then
          { f with name := patch.name.getD f.name,
                   category := patch.category.getD f.category,
                   price := patch.price.getD f.price }
        else f) }

/-- `handleDeleteFeed(feedId)` of `App.jsx`: deletes the feed doc and every
`godownStock` doc referencing the feed (deletion is by document id; ids are
unique, so this removes exactly the entries whose `feedId` matches). -/
def handleDeleteFeed (db : DB) (feedId : Nat) : DB :=
  { db with feeds := db.feeds.filter (fun f => !(f.id == feedId)),
            godown := db.godown.filter (fun g => !(g.feedId == feedId)) }

/-- The fixed category list of `App.jsx`. -/
def CATEGORIES : List String :=
  ["Shrimp Feed", "Fish Feed Growfin", "Fish Feed Nutriva"]

/-- Accumulating loop behind `categoryCounts`: for each godown entry whose
feed resolves and whose category is one of the three fixed ones, the entry's
quantity is added to that category's bucket. -/
def categoryCountsAux (db : DB) (acc : String → Int) : List StockEntry → (String → Int)
  | [] => acc
  | s :: rest =>
      match findFeed db s.feedId with
      | some fd =>
          if CATEGORIES.contains fd.category then
            categoryCountsAux db
              (fun c => if c == fd.category then acc c + s.quantity else acc c) rest
          else categoryCountsAux db acc rest
      | none => categoryCountsAux db acc rest

/-- `categoryCounts` of `App.jsx` (buckets initialised to 0). -/
def categoryCounts (db : DB) : String → Int :=
  categoryCountsAux db (fun _ => 0) db.godown

/-- `totalBags` of `App.jsx`: `godown.reduce((acc, s) => acc + s.quantity, 0)`. -/
def totalBags (db : DB) : Int :=
  db.godown.foldl (fun acc s => acc + s.quantity) 0

/-! Observables used in the statements. -/

/-- Total godown quantity booked for a feed (sum over matching entries; with
the uniqueness invariant this is the unique entry's quantity, or 0). -/
def stockQtyE (l : List StockEntry) (f : Nat) : Int :=
  ((l.filter (fun g => g.feedId == f)).map (fun g => g.quantity)).sum

/-- Warehouse quantity of feed `f`. -/
def godownQty (db : DB) (f : Nat) : Int :=
  stockQtyE db.godown f

/-- Quantity booked for a feed in an onboard-stock (or item) list. -/
def stockQty (l : List Item) (f : Nat) : Int :=
  ((l.filter (fun i => i.feedId == f)).map (fun i => i.quantity)).sum

/-- Sum of the quantities an item list requests for feed `f`. -/
def itemSum (items : List Item) (f : Nat) : Int :=
  ((items.filter (fun i => i.feedId == f)).map (fun i => i.quantity)).sum

/-- Onboard stock currently recorded for the first truck doc matching a
number. -/
def truckStockOf (db : DB) (truckNumber : String) : Option (List Item) :=
  (db.trucks.find? (fun t => t.truckNumber == truckNumber)).bind (fun t => t.stock)

/-- The feed ids referenced from the godown ledger, in order. -/
def godownFeedIds (db : DB) : List Nat :=
  db.godown.map StockEntry.feedId

/-- Coverage check for an outgoing movement: every listed deduction passes
the check `decreaseGodown` actually performs, i.e. against the one pre-call
snapshot that all items of a submission read (each item is checked
independently against that snapshot, not against the running balance). -/
def coveredByStale (snap : List StockEntry) (items : List Item) : Bool :=
  items.all (fun it =>
    match snap.find? (fun g => g.feedId == it.feedId) with
    | some e => if e.quantity < it.quantity then false else true
    | none => false)

/-! Generic helper lemmas. -/

theorem le_foldr_max (l : List Nat) : ∀ x ∈ l, x ≤ l.foldr max 0 := by
  induction l with
  | nil => intro x hx; cases hx
  | cons a l ih =>
      intro x hx
      rcases List.mem_cons.mp hx with rfl | hx
      · exact le_max_left _ _
      · exact le_trans (ih x hx) (le_max_right _ _)

theorem lt_freshId_of_mem_allIds (db : DB) : ∀ x ∈ allIds db, x < freshId db := by
  intro x hx
  exact Nat.lt_succ_of_le (le_foldr_max _ x hx)

theorem godown_id_lt_freshId (db : DB) : ∀ g ∈ db.godown, g.id < freshId db := by
  intro g hg
  refine lt_freshId_of_mem_allIds db _ ?_
  unfold allIds
  have : g.id ∈ db.godown.map StockEntry.id := List.mem_map_of_mem StockEntry.id hg
  exact List.mem_append_left _ (List.mem_append_left _ (List.mem_append_right _ this))

theorem godown_feedId_lt_freshId (db : DB) : ∀ g ∈ db.godown, g.feedId < freshId db := by
  intro g hg
  refine lt_freshId_of_mem_allIds db _ ?_
  unfold allIds
  have : g.feedId ∈ db.godown.map StockEntry.feedId :=
    List.mem_map_of_mem StockEntry.feedId hg
  exact List.mem_append_left _ (List.mem_append_right _ this)

/-! Quantity bookkeeping lemmas over godown-ledger lists. -/

theorem stockQtyE_cons (x : StockEntry) (l : List StockEntry) (f : Nat) :
    stockQtyE (x :: l) f = (if x.feedId == f then x.quantity else 0) + stockQtyE l f := by
  by_cases h : x.feedId == f <;> simp [stockQtyE, List.filter_cons, h]

theorem stockQtyE_append_single (l : List StockEntry) (x : StockEntry) (f : Nat) :
    stockQtyE (l ++ [x]) f = stockQtyE l f + (if x.feedId == f then x.quantity else 0) := by
  by_cases h : x.feedId == f <;> simp [stockQtyE, List.filter_append, List.filter_cons, h]

theorem map_update_eq_of_id_not_mem (l : List StockEntry) (i : Nat) (v : Int)
    (h : i ∉ l.map StockEntry.id) :
    l.map (fun x => if x.id == i then { x with quantity := v } else x) = l := by
  induction l with
  | nil => rfl
  | cons x rest ih =>
      simp only [List.map_cons, List.mem_cons] at h
      push_neg at h
      have hx : ¬ ((x.id == i) = true) := by
        simp only [beq_iff_eq]
        exact fun hxe => h.1 hxe.symm
      rw [List.map_cons, if_neg hx, ih h.2]

theorem map_update_ids (l : List StockEntry) (i : Nat) (v : Int) :
    (l.map (fun x => if x.id == i then { x with quantity := v } else x)).map StockEntry.id
      = l.map StockEntry.id := by
  induction l with
  | nil => rfl
  | cons x rest ih =>
      simp only [List.map_cons]
      rw [ih]
      congr 1
      split <;> rfl

theorem map_update_feedIds (l : List StockEntry) (i : Nat) (v : Int) :
    (l.map (fun x => if x.id == i then { x with quantity := v } else x)).map StockEntry.feedId
      = l.map StockEntry.feedId := by
  induction l with
  | nil => rfl
  | cons x rest ih =>
      simp only [List.map_cons]
      rw [ih]
      congr 1
      split <;> rfl

theorem stockQtyE_map_update (l : List StockEntry) (e : StockEntry) (v : Int)
    (hnd : (l.map StockEntry.id).Nodup) (he : e ∈ l) (f : Nat) :
    stockQtyE (l.map (fun x => if x.id == e.id then { x with quantity := v } else x)) f
      = stockQtyE l f + (if e.feedId == f then v - e.quantity else 0) := by
  induction l with
  | nil => cases he
  | cons x rest ih =>
      simp only [List.map_cons, List.nodup_cons] at hnd
      rcases List.mem_cons.mp he with rfl | hmem
      · have hrest : rest.map (fun x => if x.id == e.id then { x with quantity := v } else x)
            = rest := map_update_eq_of_id_not_mem rest e.id v hnd.1
        rw [List.map_cons, if_pos (beq_self_eq_true e.id), hrest,
          stockQtyE_cons, stockQtyE_cons]
        by_cases hf : (e.feedId == f) = true <;> simp [hf] <;> omega
      · have hne : ¬ ((x.id == e.id) = true) := by
          simp only [beq_iff_eq]
          exact fun hxe => hnd.1 (hxe ▸ List.mem_map_of_mem StockEntry.id hmem)
        rw [List.map_cons, if_neg hne, stockQtyE_cons, stockQtyE_cons, ih hnd.2 hmem]
        omega

/-! Quantity bookkeeping lemmas over onboard-stock item lists. -/

theorem stockQty_cons (x : Item) (l : List Item) (f : Nat) :
    stockQty (x :: l) f = (if x.feedId == f then x.quantity else 0) + stockQty l f := by
  by_cases h : x.feedId == f <;> simp [stockQty, List.filter_cons, h]

theorem stockQty_append_single (l : List Item) (x : Item) (f : Nat) :
    stockQty (l ++ [x]) f = stockQty l f + (if x.feedId == f then x.quantity else 0) := by
  by_cases h : x.feedId == f <;> simp [stockQty, List.filter_append, List.filter_cons, h]

theorem itemSum_cons (x : Item) (l : List Item) (f : Nat) :
    itemSum (x :: l) f = (if x.feedId == f then x.quantity else 0) + itemSum l f := by
  by_cases h : x.feedId == f <;> simp [itemSum, List.filter_cons, h]

theorem stockQty_bumpFirst (l : List Item) (fid : Nat) (d : Int) (f : Nat)
    (h : ∃ s ∈ l, s.feedId = fid) :
    stockQty (bumpFirst fid d l) f = stockQty l f + (if fid == f then d else 0) := by
  induction l with
  | nil => rcases h with ⟨s, hs, _⟩; cases hs
  | cons x rest ih =>
      by_cases hx : x.feedId == fid
      · have hxe : x.feedId = fid := beq_iff_eq.mp hx
        simp only [bumpFirst, hx, if_pos]
        rw [stockQty_cons, stockQty_cons]
        subst hxe
        by_cases hf : x.feedId == f <;> simp [hf] <;> omega
      · have hrest : ∃ s ∈ rest, s.feedId = fid := by
          rcases h with ⟨s, hs, hsf⟩
          rcases List.mem_cons.mp hs with rfl | hmem
          · exact absurd (by exact_mod_cast hsf) (by simpa using hx)
          · exact ⟨s, hmem, hsf⟩
        simp only [bumpFirst, hx, Bool.false_eq_true, if_neg, if_false]
        rw [stockQty_cons, stockQty_cons, ih hrest]
        omega

theorem stockQty_addToStock (l : List Item) (fid : Nat) (q : Int) (f : Nat) :
    stockQty (addToStock l fid q) f = stockQty l f + (if fid == f then q else 0) := by
  unfold addToStock
  cases h : l.find? (fun s => s.feedId == fid) with
  | some s =>
      have hs : ∃ t ∈ l, t.feedId = fid := by
        have hp := List.find?_some h
        exact ⟨s, List.mem_of_find?_eq_some h, beq_iff_eq.mp hp⟩
      simp [stockQty_bumpFirst l fid q f hs]
  | none => simp [stockQty_append_single]

theorem processItems_dest_qty :
    ∀ (items src dest s d : List Item),
      processItems src dest items = some (s, d) →
      ∀ f, stockQty d f = stockQty dest f + itemSum items f := by
  intro items
  induction items with
  | nil =>
      intro src dest s d h f
      simp only [processItems, Option.some.injEq, Prod.mk.injEq] at h
      simp [h.2.symm, itemSum]
  | cons it rest ih =>
      intro src dest s d h f
      simp only [processItems] at h
      cases hfind : src.find? (fun x => x.feedId == it.feedId) with
      | none =>
          simp only [hfind] at h
          exact Option.noConfusion h
      | some s0 =>
          simp only [hfind] at h
          by_cases hlt : s0.quantity < it.quantity
          · rw [if_pos hlt] at h
            exact Option.noConfusion h
          · rw [if_neg hlt] at h
            have := ih _ _ _ _ h f
            rw [this, stockQty_addToStock, itemSum_cons]
            omega

/-! Characterization and effect lemmas for the godown operations. -/

theorem addOrIncreaseGodown_godown_some (db : DB) (f : Nat) (q : Int) (e : StockEntry)
    (hfind : db.godown.find? (fun g => g.feedId == f) = some e) :
    (addOrIncreaseGodown db f q).godown
      = db.godown.map (fun g =>
          if g.id == e.id then { g with quantity := e.quantity + q } else g) := by
  unfold addOrIncreaseGodown
  rw [hfind]

theorem addOrIncreaseGodown_godown_none (db : DB) (f : Nat) (q : Int)
    (hfind : db.godown.find? (fun g => g.feedId == f) = none) :
    (addOrIncreaseGodown db f q).godown = db.godown ++ [⟨freshId db, f, q⟩] := by
  unfold addOrIncreaseGodown
  rw [hfind]

theorem addOrIncreaseGodown_nodup_feedIds (db : DB) (f : Nat) (q : Int)
    (hnd : (db.godown.map StockEntry.feedId).Nodup) :
    ((addOrIncreaseGodown db f q).godown.map StockEntry.feedId).Nodup := by
  cases hfind : db.godown.find? (fun g => g.feedId == f) with
  | some e =>
      rw [addOrIncreaseGodown_godown_some db f q e hfind, map_update_feedIds]
      exact hnd
  | none =>
      rw [addOrIncreaseGodown_godown_none db f q hfind]
      rw [List.map_append, List.nodup_append]
      refine ⟨hnd, List.nodup_singleton _, ?_⟩
      intro a ha
      simp only [List.map_cons, List.map_nil, List.mem_singleton]
      intro hae
      rcases List.mem_map.mp ha with ⟨g, hg, rfl⟩
      have := List.find?_eq_none.mp hfind g hg
      subst hae
      simp at this

theorem decreaseG_none_iff (g : List StockEntry) (fid : Nat) (q : Int) :
    decreaseG g fid q = none ↔
      (g.find? (fun e => e.feedId == fid) = none
       ∨ ∃ e, g.find? (fun e => e.feedId == fid) = some e ∧ e.quantity < q) := by
  unfold decreaseG
  cases hfind : g.find? (fun e => e.feedId == fid) with
  | none => simp
  | some e =>
      by_cases hlt : e.quantity < q
      · simp [hlt]
      · simp [hlt]

theorem decreaseG_some_shape (g : List StockEntry) (fid : Nat) (q : Int)
    (g' : List StockEntry) (h : decreaseG g fid q = some g') :
    ∃ e, g.find? (fun x => x.feedId == fid) = some e ∧ ¬ e.quantity < q
      ∧ g' = g.map (fun x =>
          if x.id == e.id then { x with quantity := e.quantity - q } else x) := by
  unfold decreaseG at h
  cases hfind : g.find? (fun x => x.feedId == fid) with
  | none =>
      simp only [hfind] at h
      exact Option.noConfusion h
  | some e =>
      simp only [hfind] at h
      by_cases hlt : e.quantity < q
      · rw [if_pos hlt] at h
        exact Option.noConfusion h
      · rw [if_neg hlt] at h
        injection h with h
        exact ⟨e, rfl, hlt, h.symm⟩

theorem decreaseG_ids (g : List StockEntry) (fid : Nat) (q : Int)
    (g' : List StockEntry) (h : decreaseG g fid q = some g') :
    g'.map StockEntry.id = g.map StockEntry.id := by
  rcases decreaseG_some_shape g fid q g' h with ⟨e, _, _, rfl⟩
  exact map_update_ids g e.id (e.quantity - q)

theorem decreaseG_feedIds (g : List StockEntry) (fid : Nat) (q : Int)
    (g' : List StockEntry) (h : decreaseG g fid q = some g') :
    g'.map StockEntry.feedId = g.map StockEntry.feedId := by
  rcases decreaseG_some_shape g fid q g' h with ⟨e, _, _, rfl⟩
  exact map_update_feedIds g e.id (e.quantity - q)

theorem decreaseG_qty (g : List StockEntry) (fid : Nat) (q : Int) (g' : List StockEntry)
    (hnd : (g.map StockEntry.id).Nodup) (h : decreaseG g fid q = some g') (f' : Nat) :
    stockQtyE g' f' = stockQtyE g f' - (if fid == f' then q else 0) := by
  rcases decreaseG_some_shape g fid q g' h with ⟨e, hfind, _, rfl⟩
  have he := List.mem_of_find?_eq_some hfind
  have hp := List.find?_some hfind
  have hfe : e.feedId = fid := beq_iff_eq.mp hp
  rw [stockQtyE_map_update g e (e.quantity - q) hnd he f', hfe]
  by_cases hb : (fid == f') = true <;> simp [hb] <;> omega

theorem decreaseGodown_eq_ok (db : DB) (f : Nat) (q : Int) (g' : List StockEntry)
    (h : decreaseG db.godown f q = some g') :
    decreaseGodown db f q = .ok { db with godown := g' } := by
  unfold decreaseGodown
  rw [h]

theorem decreaseGodown_eq_error (db : DB) (f : Nat) (q : Int)
    (h : decreaseG db.godown f q = none) :
    decreaseGodown db f q = .error "Not enough godown stock" := by
  unfold decreaseGodown
  rw [h]

theorem decreaseCaught_of_none (db : DB) (f : Nat) (q : Int)
    (h : decreaseG db.godown f q = none) :
    decreaseCaught db f q = db := by
  unfold decreaseCaught
  rw [decreaseGodown_eq_error db f q h]

/-! Characterization and effect lemmas for the stale-snapshot per-item
operations of `submitTruckEntry`. -/

theorem addOrIncreaseGodownStale_godown_some (snap : List StockEntry) (db : DB) (f : Nat)
    (q : Int) (e : StockEntry) (hfind : snap.find? (fun g => g.feedId == f) = some e) :
    (addOrIncreaseGodownStale snap db f q).godown
      = db.godown.map (fun g =>
          if g.id == e.id then { g with quantity := e.quantity + q } else g) := by
  unfold addOrIncreaseGodownStale
  rw [hfind]

theorem addOrIncreaseGodownStale_godown_none (snap : List StockEntry) (db : DB) (f : Nat)
    (q : Int) (hfind : snap.find? (fun g => g.feedId == f) = none) :
    (addOrIncreaseGodownStale snap db f q).godown = db.godown ++ [⟨freshId db, f, q⟩] := by
  unfold addOrIncreaseGodownStale
  rw [hfind]

theorem addOrIncreaseGodownStale_frame (snap : List StockEntry) (db : DB) (f : Nat)
    (q : Int) :
    (addOrIncreaseGodownStale snap db f q).feeds = db.feeds
    ∧ (addOrIncreaseGodownStale snap db f q).trucks = db.trucks
    ∧ (addOrIncreaseGodownStale snap db f q).transfers = db.transfers
    ∧ (addOrIncreaseGodownStale snap db f q).logs = db.logs := by
  unfold addOrIncreaseGodownStale
  cases snap.find? (fun g => g.feedId == f) <;> exact ⟨rfl, rfl, rfl, rfl⟩

theorem addOrIncreaseGodownStale_nodup_ids (snap : List StockEntry) (db : DB) (f : Nat)
    (q : Int) (hnd : (db.godown.map StockEntry.id).Nodup) :
    ((addOrIncreaseGodownStale snap db f q).godown.map StockEntry.id).Nodup := by
  cases hfind : snap.find? (fun g => g.feedId == f) with
  | some e =>
      rw [addOrIncreaseGodownStale_godown_some snap db f q e hfind, map_update_ids]
      exact hnd
  | none =>
      rw [addOrIncreaseGodownStale_godown_none snap db f q hfind]
      rw [List.map_append, List.nodup_append]
      refine ⟨hnd, List.nodup_singleton _, ?_⟩
      intro a ha
      simp only [List.map_cons, List.map_nil, List.mem_singleton]
      intro hae
      rcases List.mem_map.mp ha with ⟨g, hg, rfl⟩
      exact absurd (hae ▸ godown_id_lt_freshId db g hg) (lt_irrefl _)

theorem addOrIncreaseGodownStale_qty (snap : List StockEntry) (db : DB) (f : Nat) (q : Int)
    (hnd : (db.godown.map StockEntry.id).Nodup)
    (hmem : ∀ e, snap.find? (fun g => g.feedId == f) = some e → e ∈ db.godown) (f' : Nat) :
    godownQty (addOrIncreaseGodownStale snap db f q) f'
      = godownQty db f' + (if f == f' then q else 0) := by
  unfold godownQty
  cases hfind : snap.find? (fun g => g.feedId == f) with
  | some e =>
      have he := hmem e hfind
      have hp := List.find?_some hfind
      have hfe : e.feedId = f := beq_iff_eq.mp hp
      rw [addOrIncreaseGodownStale_godown_some snap db f q e hfind,
        stockQtyE_map_update db.godown e (e.quantity + q) hnd he f', hfe]
      by_cases h : (f == f') = true <;> simp [h] <;> omega
  | none =>
      rw [addOrIncreaseGodownStale_godown_none snap db f q hfind, stockQtyE_append_single]

theorem decreaseGodownStale_eq_ok (snap : List StockEntry) (db : DB) (f : Nat) (q : Int)
    (e : StockEntry) (hfind : snap.find? (fun g => g.feedId == f) = some e)
    (hlt : ¬ e.quantity < q) :
    decreaseGodownStale snap db f q
      = .ok { db with
          godown := db.godown.map (fun g =>
            if g.id == e.id then { g with quantity := e.quantity - q } else g) } := by
  unfold decreaseGodownStale
  rw [hfind]
  exact if_neg hlt

theorem decreaseGodownStale_eq_error_none (snap : List StockEntry) (db : DB) (f : Nat)
    (q : Int) (hfind : snap.find? (fun g => g.feedId == f) = none) :
    decreaseGodownStale snap db f q = .error "Not enough godown stock" := by
  unfold decreaseGodownStale
  rw [hfind]

theorem decreaseGodownStale_eq_error_low (snap : List StockEntry) (db : DB) (f : Nat)
    (q : Int) (e : StockEntry) (hfind : snap.find? (fun g => g.feedId == f) = some e)
    (hlt : e.quantity < q) :
    decreaseGodownStale snap db f q = .error "Not enough godown stock" := by
  unfold decreaseGodownStale
  rw [hfind]
  exact if_pos hlt

theorem decreaseCaughtStale_of_error (snap : List StockEntry) (db : DB) (f : Nat) (q : Int)
    (h : decreaseGodownStale snap db f q = .error "Not enough godown stock") :
    decreaseCaughtStale snap db f q = db := by
  unfold decreaseCaughtStale
  rw [h]

theorem decreaseCaughtStale_godown_some (snap : List StockEntry) (db : DB) (f : Nat)
    (q : Int) (e : StockEntry) (hfind : snap.find? (fun g => g.feedId == f) = some e)
    (hlt : ¬ e.quantity < q) :
    decreaseCaughtStale snap db f q
      = { db with
          godown := db.godown.map (fun g =>
            if g.id == e.id then { g with quantity := e.quantity - q } else g) } := by
  unfold decreaseCaughtStale
  rw [decreaseGodownStale_eq_ok snap db f q e hfind hlt]

theorem decreaseCaughtStale_frame (snap : List StockEntry) (db : DB) (f : Nat) (q : Int) :
    (decreaseCaughtStale snap db f q).feeds = db.feeds
    ∧ (decreaseCaughtStale snap db f q).trucks = db.trucks
    ∧ (decreaseCaughtStale snap db f q).transfers = db.transfers
    ∧ (decreaseCaughtStale snap db f q).logs = db.logs := by
  cases hfind : snap.find? (fun g => g.feedId == f) with
  | none =>
      rw [decreaseCaughtStale_of_error snap db f q
        (decreaseGodownStale_eq_error_none snap db f q hfind)]
      exact ⟨rfl, rfl, rfl, rfl⟩
  | some e =>
      by_cases hlt : e.quantity < q
      · rw [decreaseCaughtStale_of_error snap db f q
          (decreaseGodownStale_eq_error_low snap db f q e hfind hlt)]
        exact ⟨rfl, rfl, rfl, rfl⟩
      · rw [decreaseCaughtStale_godown_some snap db f q e hfind hlt]
        exact ⟨rfl, rfl, rfl, rfl⟩

theorem decreaseCaughtStale_nodup_ids (snap : List StockEntry) (db : DB) (f : Nat) (q : Int)
    (hnd : (db.godown.map StockEntry.id).Nodup) :
    ((decreaseCaughtStale snap db f q).godown.map StockEntry.id).Nodup := by
  cases hfind : snap.find? (fun g => g.feedId == f) with
  | none =>
      rw [decreaseCaughtStale_of_error snap db f q
        (decreaseGodownStale_eq_error_none snap db f q hfind)]
      exact hnd
  | some e =>
      by_cases hlt : e.quantity < q
      · rw [decreaseCaughtStale_of_error snap db f q
          (decreaseGodownStale_eq_error_low snap db f q e hfind hlt)]
        exact hnd
      · rw [decreaseCaughtStale_godown_some snap db f q e hfind hlt]
        have hgoal : ((db.godown.map (fun g =>
            if g.id == e.id then { g with quantity := e.quantity - q } else g)).map
              StockEntry.id).Nodup := by
          rw [map_update_ids]
          exact hnd
        exact hgoal

theorem decreaseCaughtStale_feedIds (snap : List StockEntry) (db : DB) (f : Nat) (q : Int) :
    (decreaseCaughtStale snap db f q).godown.map StockEntry.feedId
      = db.godown.map StockEntry.feedId := by
  cases hfind : snap.find? (fun g => g.feedId == f) with
  | none =>
      rw [decreaseCaughtStale_of_error snap db f q
        (decreaseGodownStale_eq_error_none snap db f q hfind)]
  | some e =>
      by_cases hlt : e.quantity < q
      · rw [decreaseCaughtStale_of_error snap db f q
          (decreaseGodownStale_eq_error_low snap db f q e hfind hlt)]
      · rw [decreaseCaughtStale_godown_some snap db f q e hfind hlt]
        exact map_update_feedIds db.godown e.id (e.quantity - q)

theorem decreaseCaughtStale_qty (snap : List StockEntry) (db : DB) (f : Nat) (q : Int)
    (e : StockEntry) (hnd : (db.godown.map StockEntry.id).Nodup)
    (hfind : snap.find? (fun g => g.feedId == f) = some e) (hlt : ¬ e.quantity < q)
    (he : e ∈ db.godown) (f' : Nat) :
    godownQty (decreaseCaughtStale snap db f q) f'
      = godownQty db f' - (if f == f' then q else 0) := by
  rw [decreaseCaughtStale_godown_some snap db f q e hfind hlt]
  have hp := List.find?_some hfind
  have hfe : e.feedId = f := beq_iff_eq.mp hp
  have hq := stockQtyE_map_update db.godown e (e.quantity - q) hnd he f'
  have hg : godownQty ({ db with
        godown := db.godown.map (fun g =>
          if g.id == e.id then { g with quantity := e.quantity - q } else g) } : DB) f'
      = stockQtyE (db.godown.map (fun g =>
          if g.id == e.id then { g with quantity := e.quantity - q } else g)) f' := rfl
  have hdb : godownQty db f' = stockQtyE db.godown f' := rfl
  rw [hg, hq, hfe, hdb]
  by_cases hb : (f == f') = true <;> simp [hb] <;> omega

theorem mem_map_update_of_ne_id (l : List StockEntry) (i : Nat) (v : Int) (e : StockEntry)
    (he : e ∈ l) (hne : e.id ≠ i) :
    e ∈ l.map (fun x => if x.id == i then { x with quantity := v } else x) := by
  have hb : (e.id == i) = false := beq_eq_false_iff_ne.mpr hne
  have hm := List.mem_map_of_mem
    (fun x => if x.id == i then { x with quantity := v } else x) he
  simpa [hb] using hm

theorem coveredByStale_cons (snap : List StockEntry) (it : Item) (rest : List Item) :
    coveredByStale snap (it :: rest) = true ↔
      ((∃ e, snap.find? (fun g => g.feedId == it.feedId) = some e
          ∧ ¬ e.quantity < it.quantity)
        ∧ coveredByStale snap rest = true) := by
  cases hfind : snap.find? (fun g => g.feedId == it.feedId) with
  | none => simp [coveredByStale, hfind]
  | some e =>
      by_cases hlt : e.quantity < it.quantity
      · simp [coveredByStale, hfind, hlt]
      · simp [coveredByStale, hfind, hlt]
        exact fun _ => le_of_not_lt hlt

/-! Lemmas about the per-item folds inside `submitTruckEntry`. -/

theorem foldAddStale_frame : ∀ (items : List Item) (snap : List StockEntry) (db : DB),
    ((items.foldl (fun d it => addOrIncreaseGodownStale snap d it.feedId it.quantity)
        db).feeds = db.feeds)
    ∧ ((items.foldl (fun d it => addOrIncreaseGodownStale snap d it.feedId it.quantity)
        db).trucks = db.trucks)
    ∧ ((items.foldl (fun d it => addOrIncreaseGodownStale snap d it.feedId it.quantity)
        db).transfers = db.transfers)
    ∧ ((items.foldl (fun d it => addOrIncreaseGodownStale snap d it.feedId it.quantity)
        db).logs = db.logs) := by
  intro items
  induction items with
  | nil => exact fun snap db => ⟨rfl, rfl, rfl, rfl⟩
  | cons it rest ih =>
      intro snap db
      have h1 := addOrIncreaseGodownStale_frame snap db it.feedId it.quantity
      have h2 := ih snap (addOrIncreaseGodownStale snap db it.feedId it.quantity)
      simp only [List.foldl_cons]
      exact ⟨h2.1.trans h1.1, h2.2.1.trans h1.2.1, h2.2.2.1.trans h1.2.2.1,
        h2.2.2.2.trans h1.2.2.2⟩

theorem foldDecStale_frame : ∀ (items : List Item) (snap : List StockEntry) (db : DB),
    ((items.foldl (fun d it => decreaseCaughtStale snap d it.feedId it.quantity)
        db).feeds = db.feeds)
    ∧ ((items.foldl (fun d it => decreaseCaughtStale snap d it.feedId it.quantity)
        db).trucks = db.trucks)
    ∧ ((items.foldl (fun d it => decreaseCaughtStale snap d it.feedId it.quantity)
        db).transfers = db.transfers)
    ∧ ((items.foldl (fun d it => decreaseCaughtStale snap d it.feedId it.quantity)
        db).logs = db.logs) := by
  intro items
  induction items with
  | nil => exact fun snap db => ⟨rfl, rfl, rfl, rfl⟩
  | cons it rest ih =>
      intro snap db
      have h1 := decreaseCaughtStale_frame snap db it.feedId it.quantity
      have h2 := ih snap (decreaseCaughtStale snap db it.feedId it.quantity)
      simp only [List.foldl_cons]
      exact ⟨h2.1.trans h1.1, h2.2.1.trans h1.2.1, h2.2.2.1.trans h1.2.2.1,
        h2.2.2.2.trans h1.2.2.2⟩

theorem foldAddStale_qty :
    ∀ (items : List Item) (snap : List StockEntry) (db : DB) (f : Nat),
      (snap.map StockEntry.id).Nodup →
      (db.godown.map StockEntry.id).Nodup →
      (items.map Item.feedId).Nodup →
      (∀ it ∈ items, ∀ e, snap.find? (fun g => g.feedId == it.feedId) = some e →
          e ∈ db.godown) →
      godownQty (items.foldl
          (fun d it => addOrIncreaseGodownStale snap d it.feedId it.quantity) db) f
        = godownQty db f + itemSum items f := by
  intro items
  induction items with
  | nil =>
      intro snap db f _ _ _ _
      simp [itemSum]
  | cons it rest ih =>
      intro snap db f hsn hnd hfd hmem
      simp only [List.map_cons, List.nodup_cons] at hfd
      have hhead : it.feedId ∉ rest.map Item.feedId := hfd.1
      have hmem' : ∀ it' ∈ rest, ∀ e,
          snap.find? (fun g => g.feedId == it'.feedId) = some e →
          e ∈ (addOrIncreaseGodownStale snap db it.feedId it.quantity).godown := by
        intro it' hit' e he
        have hedb : e ∈ db.godown := hmem it' (List.mem_cons_of_mem it hit') e he
        cases hfind : snap.find? (fun g => g.feedId == it.feedId) with
        | some e0 =>
            rw [addOrIncreaseGodownStale_godown_some snap db it.feedId it.quantity e0 hfind]
            have hes : e ∈ snap := List.mem_of_find?_eq_some he
            have he0s : e0 ∈ snap := List.mem_of_find?_eq_some hfind
            have hp1 := List.find?_some he
            have hp2 := List.find?_some hfind
            have hfe : e.feedId = it'.feedId := beq_iff_eq.mp hp1
            have hfe0 : e0.feedId = it.feedId := beq_iff_eq.mp hp2
            have hne : e.id ≠ e0.id := by
              intro hid
              have hee : e = e0 := List.inj_on_of_nodup_map hsn hes he0s hid
              apply hhead
              have hfeq : it.feedId = it'.feedId := by
                rw [← hfe0, ← hee, hfe]
              rw [hfeq]
              exact List.mem_map_of_mem Item.feedId hit'
            exact mem_map_update_of_ne_id db.godown e0.id (e0.quantity + it.quantity)
              e hedb hne
        | none =>
            rw [addOrIncreaseGodownStale_godown_none snap db it.feedId it.quantity hfind]
            exact List.mem_append_left _ hedb
      simp only [List.foldl_cons]
      rw [ih snap _ f hsn
        (addOrIncreaseGodownStale_nodup_ids snap db it.feedId it.quantity hnd) hfd.2 hmem']
      rw [addOrIncreaseGodownStale_qty snap db it.feedId it.quantity hnd
        (fun e he => hmem it (List.mem_cons_self it rest) e he) f]
      rw [itemSum_cons]
      by_cases hb : (it.feedId == f) = true <;> simp [hb] <;> omega

theorem foldDecStale_qty :
    ∀ (items : List Item) (snap : List StockEntry) (db : DB) (f : Nat),
      (snap.map StockEntry.id).Nodup →
      (db.godown.map StockEntry.id).Nodup →
      (items.map Item.feedId).Nodup →
      coveredByStale snap items = true →
      (∀ it ∈ items, ∀ e, snap.find? (fun g => g.feedId == it.feedId) = some e →
          e ∈ db.godown) →
      godownQty (items.foldl
          (fun d it => decreaseCaughtStale snap d it.feedId it.quantity) db) f
        = godownQty db f - itemSum items f := by
  intro items
  induction items with
  | nil =>
      intro snap db f _ _ _ _ _
      simp [itemSum]
  | cons it rest ih =>
      intro snap db f hsn hnd hfd hcov hmem
      rcases (coveredByStale_cons snap it rest).mp hcov with ⟨⟨e0, hfind, hlt⟩, hcov2⟩
      simp only [List.map_cons, List.nodup_cons] at hfd
      have hhead : it.feedId ∉ rest.map Item.feedId := hfd.1
      have he0db : e0 ∈ db.godown := hmem it (List.mem_cons_self it rest) e0 hfind
      have hmem' : ∀ it' ∈ rest, ∀ e,
          snap.find? (fun g => g.feedId == it'.feedId) = some e →
          e ∈ (decreaseCaughtStale snap db it.feedId it.quantity).godown := by
        intro it' hit' e he
        have hedb : e ∈ db.godown := hmem it' (List.mem_cons_of_mem it hit') e he
        rw [decreaseCaughtStale_godown_some snap db it.feedId it.quantity e0 hfind hlt]
        have hes : e ∈ snap := List.mem_of_find?_eq_some he
        have he0s : e0 ∈ snap := List.mem_of_find?_eq_some hfind
        have hp1 := List.find?_some he
        have hp2 := List.find?_some hfind
        have hfe : e.feedId = it'.feedId := beq_iff_eq.mp hp1
        have hfe0 : e0.feedId = it.feedId := beq_iff_eq.mp hp2
        have hne : e.id ≠ e0.id := by
          intro hid
          have hee : e = e0 := List.inj_on_of_nodup_map hsn hes he0s hid
          apply hhead
          have hfeq : it.feedId = it'.feedId := by
            rw [← hfe0, ← hee, hfe]
          rw [hfeq]
          exact List.mem_map_of_mem Item.feedId hit'
        exact mem_map_update_of_ne_id db.godown e0.id (e0.quantity - it.quantity)
          e hedb hne
      simp only [List.foldl_cons]
      rw [ih snap _ f hsn
        (decreaseCaughtStale_nodup_ids snap db it.feedId it.quantity hnd) hfd.2 hcov2 hmem']
      rw [decreaseCaughtStale_qty snap db it.feedId it.quantity e0 hnd hfind hlt he0db f]
      rw [itemSum_cons]
      by_cases hb : (it.feedId == f) = true <;> simp [hb] <;> omega

theorem foldAddStale_feedIds :
    ∀ (items : List Item) (snap : List StockEntry) (db : DB),
      ((items.foldl (fun d it => addOrIncreaseGodownStale snap d it.feedId it.quantity)
          db).godown.map StockEntry.feedId)
        = db.godown.map StockEntry.feedId
          ++ (items.filter (fun it =>
              (snap.find? (fun g => g.feedId == it.feedId)).isNone)).map Item.feedId := by
  intro items
  induction items with
  | nil =>
      intro snap db
      simp
  | cons it rest ih =>
      intro snap db
      simp only [List.foldl_cons, List.filter_cons]
      cases hfind : snap.find? (fun g => g.feedId == it.feedId) with
      | some e =>
          rw [ih snap _]
          rw [addOrIncreaseGodownStale_godown_some snap db it.feedId it.quantity e hfind,
            map_update_feedIds]
          simp [hfind]
      | none =>
          rw [ih snap _]
          rw [addOrIncreaseGodownStale_godown_none snap db it.feedId it.quantity hfind]
          simp [hfind, List.map_append, List.append_assoc]

theorem foldDecStale_feedIds :
    ∀ (items : List Item) (snap : List StockEntry) (db : DB),
      ((items.foldl (fun d it => decreaseCaughtStale snap d it.feedId it.quantity)
          db).godown.map StockEntry.feedId)
        = db.godown.map StockEntry.feedId := by
  intro items
  induction items with
  | nil =>
      intro snap db
      rfl
  | cons it rest ih =>
      intro snap db
      simp only [List.foldl_cons]
      rw [ih snap _, decreaseCaughtStale_feedIds]

/-! Concrete states used in the scenario theorems. -/

/-- Initial state for the end-to-end scenario of §8: one feed `F1` (id 0),
everything else empty. -/
def dbScenario : DB :=
  { feeds := [⟨0, "F1", "Shrimp Feed", 0⟩], godown := [], trucks := [],
    transfers := [], logs := [] }

/-- State with a single registered source truck `TRK2` carrying 5 bags of
feed 7, and no destination truck. -/
def dbOneTruck : DB :=
  { feeds := [], godown := [],
    trucks := [⟨1, "TRK2", none, [], none, some [⟨7, 5⟩]⟩],
    transfers := [], logs := [] }

/-- C5: starting from a source truck registered with stock [(F1,10)] and no
destination truck, `transfer("TRK2","TRK3",[(F1,4)])` succeeds and leaves
TRK2 with exactly [(F1,6)], TRK3 with exactly [(F1,4)], and appends exactly
one `DirectTransfer` record and one `LogEntry` with action
`Direct Transfer`. -/
theorem transfer_end_to_end_scenario :
    truckStockOf (transferFromSourceToDest
        (registerSourceTruckLoad dbScenario "TRK2" [⟨0, 10⟩]) "TRK2" "TRK3" [⟨0, 4⟩])
        "TRK2" = some [⟨0, 6⟩]
    ∧ truckStockOf (transferFromSourceToDest
        (registerSourceTruckLoad dbScenario "TRK2" [⟨0, 10⟩]) "TRK2" "TRK3" [⟨0, 4⟩])
        "TRK3" = some [⟨0, 4⟩]
    ∧ (transferFromSourceToDest
        (registerSourceTruckLoad dbScenario "TRK2" [⟨0, 10⟩]) "TRK2" "TRK3" [⟨0, 4⟩]).transfers
        = [⟨"TRK2", "TRK3", [⟨0, 4⟩]⟩]
    ∧ ((transferFromSourceToDest
        (registerSourceTruckLoad dbScenario "TRK2" [⟨0, 10⟩]) "TRK2" "TRK3" [⟨0, 4⟩]).logs.filter
          (fun l => l.action == "Direct Transfer")).length = 1 := by
  decide

/-- C1 counterexample: a direct transfer whose items fail the stock check
(requesting 10 of feed 7 when the source truck holds 5) does NOT leave every
collection unchanged — the aborted call has already created and persisted a
destination truck record, refuting "no persistence at all". -/
theorem transfer_failed_validation_creates_dest_truck :
    (transferFromSourceToDest dbOneTruck "TRK2" "TRK3" [⟨7, 10⟩]).transfers
        = dbOneTruck.transfers
    ∧ (transferFromSourceToDest dbOneTruck "TRK2" "TRK3" [⟨7, 10⟩]).logs = dbOneTruck.logs
    ∧ (transferFromSourceToDest dbOneTruck "TRK2" "TRK3" [⟨7, 10⟩]).trucks ≠ dbOneTruck.trucks
    ∧ (transferFromSourceToDest dbOneTruck "TRK2" "TRK3" [⟨7, 10⟩]).trucks
        = dbOneTruck.trucks ++ [⟨2, "TRK3", none, [], none, some []⟩] := by
  decide

/-- C6: within one direct-transfer call, items naming the same feed are
validated cumulatively against the working copy: with source stock [(F,q)],
the item list [(F,a),(F,b)] fails exactly when `q < a` or `q - a < b` (the
second item is checked against the already reduced quantity), and in
particular [(F,3),(F,3)] against [(F,5)] fails although each item alone
fits. -/
theorem processItems_cumulative_validation :
    (∀ (F : Nat) (q a b : Int) (dest : List Item),
        processItems [⟨F, q⟩] dest [⟨F, a⟩, ⟨F, b⟩] = none ↔ q < a ∨ q - a < b)
    ∧ processItems [⟨7, 5⟩] [] [⟨7, 3⟩, ⟨7, 3⟩] = none
    ∧ (processItems [⟨7, 5⟩] [] [⟨7, 3⟩]).isSome = true := by
  refine ⟨?_, by decide, by decide⟩
  intro F q a b dest
  by_cases h1 : q < a
  · simp [processItems, h1]
  · by_cases h2 : q - a < b
    · simp [processItems, bumpFirst, h1, h2, sub_eq_add_neg]
    · simp [processItems, bumpFirst, h1, h2, sub_eq_add_neg]

/-- Warehouse state with a single ledger entry: 10 bags of feed 0. -/
def dbLedger : DB :=
  { feeds := [], godown := [⟨1, 0, 10⟩], trucks := [], transfers := [], logs := [] }

/-- Aggregation test state: feed 0 is a Shrimp Feed with 10 bags booked;
the second ledger entry references the nonexistent feed 9 with 7 bags. -/
def dbAgg : DB :=
  { feeds := [⟨0, "F1", "Shrimp Feed", 0⟩], godown := [⟨1, 0, 10⟩, ⟨2, 9, 7⟩],
    trucks := [], transfers := [], logs := [] }

/-- C2 counterexample: an incoming movement listing feed 0 twice
([(0,3),(0,2)]) on a 10-bag entry ends at 12, not 10 + 5: each per-item
update reads the stale pre-call snapshot, so the second write (10 + 2)
overwrites the first (10 + 3) instead of accumulating. -/
theorem submitTruckEntry_duplicate_feed_counterexample :
    godownQty (submitTruckEntry dbLedger "T" "incoming" "" [⟨0, 3⟩, ⟨0, 2⟩]) 0 = 12
    ∧ godownQty dbLedger 0 + itemSum [⟨0, 3⟩, ⟨0, 2⟩] 0 = 15
    ∧ ¬ (godownQty (submitTruckEntry dbLedger "T" "incoming" "" [⟨0, 3⟩, ⟨0, 2⟩]) 0
          = godownQty dbLedger 0 + itemSum [⟨0, 3⟩, ⟨0, 2⟩] 0) := by
  decide

/-- C2 (amended): for every movement submission with non-empty truck number
and non-empty items naming pairwise-distinct feeds (the movement form merges
duplicate feed selections, so its submissions satisfy this): when incoming,
each feed's warehouse quantity ends at start plus the sum of that feed's
listed quantities; when outgoing with every listed deduction covered by the
pre-call warehouse snapshot all items are checked against, each feed's
quantity ends at start minus that sum. -/
theorem submitTruckEntry_quantities_distinct_feeds (db : DB) (tn dests : String)
    (items : List Item) (hnd : (db.godown.map StockEntry.id).Nodup)
    (hfd : (items.map Item.feedId).Nodup) (h1 : tn ≠ "") (h2 : items ≠ []) (f : Nat) :
    godownQty (submitTruckEntry db tn "incoming" dests items) f
      = godownQty db f + itemSum items f
    ∧ (coveredByStale db.godown items = true →
        godownQty (submitTruckEntry db tn "outgoing" dests items) f
          = godownQty db f - itemSum items f) := by
  have hguard : ¬(tn = "" ∨ items = []) := not_or.mpr ⟨h1, h2⟩
  constructor
  · simp only [submitTruckEntry]
    rw [if_neg hguard]
    simp only [if_true]
    exact foldAddStale_qty items db.godown _ f hnd hnd hfd
      (fun it _ e he => List.mem_of_find?_eq_some he)
  · intro hok
    simp only [submitTruckEntry]
    rw [if_neg hguard]
    rw [if_neg (by decide : ¬ (("outgoing" : String) = "incoming"))]
    simp only [if_true]
    exact foldDecStale_qty items db.godown _ f hnd hnd hfd hok
      (fun it _ e he => List.mem_of_find?_eq_some he)

/-- C2 witness: concrete submissions with two distinct feeds on a one-entry
ledger. -/
theorem submitTruckEntry_quantities_distinct_feeds_witness :
    ((dbLedger.godown.map StockEntry.id).Nodup
      ∧ (([⟨0, 3⟩, ⟨4, 2⟩] : List Item).map Item.feedId).Nodup
      ∧ ("T" : String) ≠ "" ∧ ([⟨0, 3⟩, ⟨4, 2⟩] : List Item) ≠ [])
    ∧ (godownQty (submitTruckEntry dbLedger "T" "incoming" "" [⟨0, 3⟩, ⟨4, 2⟩]) 0
        = godownQty dbLedger 0 + itemSum [⟨0, 3⟩, ⟨4, 2⟩] 0
      ∧ (coveredByStale dbLedger.godown [⟨0, 3⟩, ⟨4, 2⟩] = true →
          godownQty (submitTruckEntry dbLedger "T" "outgoing" "" [⟨0, 3⟩, ⟨4, 2⟩]) 0
            = godownQty dbLedger 0 - itemSum [⟨0, 3⟩, ⟨4, 2⟩] 0)) :=
  ⟨⟨by decide, by decide, by decide, by decide⟩,
    submitTruckEntry_quantities_distinct_feeds dbLedger "T" "" [⟨0, 3⟩, ⟨4, 2⟩]
      (by decide) (by decide) (by decide) (by decide) 0⟩

/-- C8: every movement submission with non-empty truck number and items
persists exactly one immutable movement record carrying the originally
requested items and appends exactly one `Truck Entry` log, whatever the
type and however the ledger deductions go; concretely, an outgoing
submission with failing deductions (6 < 100 for the second item, missing
feed for the third) still keeps the first item's deduction (10 − 4 = 6)
and rolls nothing back. -/
theorem submitTruckEntry_persists_movement_and_log (db : DB) (tn ty dests : String)
    (items : List Item) (h1 : tn ≠ "") (h2 : items ≠ []) :
    (submitTruckEntry db tn ty dests items).trucks
      = db.trucks ++
          [{ id := freshId db, truckNumber := tn, type := some ty,
             destinations := parseDestinations dests, items := some items, stock := none }]
    ∧ (submitTruckEntry db tn ty dests items).logs
      = db.logs ++
          [{ action := "Truck Entry", truckNumber := tn, type := ty,
             destinations := parseDestinations dests, items := items }]
    ∧ godownQty (submitTruckEntry dbLedger "T" "outgoing" "" [⟨0, 4⟩, ⟨0, 100⟩, ⟨5, 1⟩]) 0
        = 6 := by
  have hguard : ¬(tn = "" ∨ items = []) := not_or.mpr ⟨h1, h2⟩
  refine ⟨?_, ?_, by decide⟩
  · simp only [submitTruckEntry]
    rw [if_neg hguard]
    by_cases hty1 : ty = "incoming"
    · rw [if_pos hty1]
      exact (foldAddStale_frame items db.godown _).2.1
    · rw [if_neg hty1]
      by_cases hty2 : ty = "outgoing"
      · rw [if_pos hty2]
        exact (foldDecStale_frame items db.godown _).2.1
      · rw [if_neg hty2]
  · simp only [submitTruckEntry]
    rw [if_neg hguard]
    by_cases hty1 : ty = "incoming"
    · rw [if_pos hty1, (foldAddStale_frame items db.godown _).2.2.2]
    · rw [if_neg hty1]
      by_cases hty2 : ty = "outgoing"
      · rw [if_pos hty2, (foldDecStale_frame items db.godown _).2.2.2]
      · rw [if_neg hty2]

/-- C8 witness: a concrete submission with hypotheses discharged. -/
theorem submitTruckEntry_persists_witness :
    (("T" : String) ≠ "" ∧ ([⟨0, 4⟩] : List Item) ≠ [])
    ∧ ((submitTruckEntry dbLedger "T" "outgoing" "" [⟨0, 4⟩]).trucks
        = dbLedger.trucks ++
            [{ id := freshId dbLedger, truckNumber := "T",
               type := some "outgoing", destinations := parseDestinations "",
               items := some [⟨0, 4⟩], stock := none }]
      ∧ (submitTruckEntry dbLedger "T" "outgoing" "" [⟨0, 4⟩]).logs
          = dbLedger.logs ++
              [{ action := "Truck Entry", truckNumber := "T",
                 type := "outgoing", destinations := parseDestinations "",
                 items := [⟨0, 4⟩] }]
      ∧ godownQty (submitTruckEntry dbLedger "T" "outgoing" "" [⟨0, 4⟩, ⟨0, 100⟩, ⟨5, 1⟩]) 0
          = 6) :=
  ⟨⟨by decide, by decide⟩,
    submitTruckEntry_persists_movement_and_log dbLedger "T" "outgoing" "" [⟨0, 4⟩]
      (by decide) (by decide)⟩

/-- C4: `decreaseGodown` fails exactly when no ledger entry matches the feed
or the matched entry's quantity is below the requested amount; a failure
leaves the ledger untouched; a success keeps every entry (no deletion, even
at quantity zero), rewrites the matched entry's quantity to existing minus
requested, and leaves every other document unchanged. -/
theorem decreaseGodown_spec (db : DB) (f : Nat) (q : Int)
    (hnd : (db.godown.map StockEntry.id).Nodup) :
    ((∃ msg, decreaseGodown db f q = .error msg) ↔
      (db.godown.find? (fun g => g.feedId == f) = none
        ∨ ∃ e, db.godown.find? (fun g => g.feedId == f) = some e ∧ e.quantity < q))
    ∧ ((∃ msg, decreaseGodown db f q = .error msg) → decreaseCaught db f q = db)
    ∧ (∀ e, db.godown.find? (fun g => g.feedId == f) = some e → ¬ e.quantity < q →
        ∃ db', decreaseGodown db f q = .ok db'
          ∧ db'.godown.length = db.godown.length
          ∧ ({ e with quantity := e.quantity - q } : StockEntry) ∈ db'.godown
          ∧ godownQty db' f = godownQty db f - q
          ∧ ∀ g ∈ db.godown, g.id ≠ e.id → g ∈ db'.godown) := by
  refine ⟨?_, ?_, ?_⟩
  · cases h : decreaseG db.godown f q with
    | none =>
        rw [decreaseGodown_eq_error db f q h]
        constructor
        · intro _
          exact (decreaseG_none_iff db.godown f q).mp h
        · intro _
          exact ⟨"Not enough godown stock", rfl⟩
    | some g' =>
        rw [decreaseGodown_eq_ok db f q g' h]
        constructor
        · rintro ⟨msg, hmsg⟩
          exact Except.noConfusion hmsg
        · intro hcond
          exact absurd ((decreaseG_none_iff db.godown f q).mpr hcond) (by simp [h])
  · rintro ⟨msg, hmsg⟩
    cases h : decreaseG db.godown f q with
    | none => exact decreaseCaught_of_none db f q h
    | some g' =>
        rw [decreaseGodown_eq_ok db f q g' h] at hmsg
        exact Except.noConfusion hmsg
  · intro e hfind hlt
    have hdec : decreaseG db.godown f q
        = some (db.godown.map (fun x =>
            if x.id == e.id then { x with quantity := e.quantity - q } else x)) := by
      unfold decreaseG
      rw [hfind]
      exact if_neg hlt
    refine ⟨{ db with godown := db.godown.map (fun x =>
        if x.id == e.id then { x with quantity := e.quantity - q } else x) },
      decreaseGodown_eq_ok db f q _ hdec, by simp, ?_, ?_, ?_⟩
    · have hm := List.mem_map_of_mem
        (fun x => if x.id == e.id then { x with quantity := e.quantity - q } else x)
        (List.mem_of_find?_eq_some hfind)
      simpa using hm
    · have hq := decreaseG_qty db.godown f q _ hnd hdec f
      have hself : (f == f) = true := beq_self_eq_true f
      rw [hself] at hq
      simpa using hq
    · intro g hg hgne
      have hb : (g.id == e.id) = false := beq_eq_false_iff_ne.mpr hgne
      have hm := List.mem_map_of_mem
        (fun x => if x.id == e.id then { x with quantity := e.quantity - q } else x) hg
      simpa [hb] using hm

/-- C4 witness: ledger with 10 bags of feed 0; decreasing by 4 succeeds and
decreasing by 11 fails, both as specified. -/
theorem decreaseGodown_spec_witness :
    ((dbLedger.godown.map StockEntry.id).Nodup)
    ∧ (((∃ msg, decreaseGodown dbLedger 0 11 = .error msg) ↔
        (dbLedger.godown.find? (fun g => g.feedId == 0) = none
          ∨ ∃ e, dbLedger.godown.find? (fun g => g.feedId == 0) = some e ∧ e.quantity < 11))
      ∧ ((∃ msg, decreaseGodown dbLedger 0 11 = .error msg) → decreaseCaught dbLedger 0 11 = dbLedger)
      ∧ (∀ e, dbLedger.godown.find? (fun g => g.feedId == 0) = some e → ¬ e.quantity < 11 →
          ∃ db', decreaseGodown dbLedger 0 11 = .ok db'
            ∧ db'.godown.length = dbLedger.godown.length
            ∧ ({ e with quantity := e.quantity - 11 } : StockEntry) ∈ db'.godown
            ∧ godownQty db' 0 = godownQty dbLedger 0 - 11
            ∧ ∀ g ∈ dbLedger.godown, g.id ≠ e.id → g ∈ db'.godown)) :=
  ⟨by decide, decreaseGodown_spec dbLedger 0 11 (by decide)⟩

/-- C3 counterexample: the uniqueness invariant is NOT preserved by every
operation — an incoming movement listing the same absent feed twice makes
both per-item reads miss in the stale pre-call snapshot, so each takes the
create branch and two `godownStock` docs with the same `feedId` are
persisted. -/
theorem godown_feedId_unique_broken_by_duplicates :
    (godownFeedIds dbScenario).Nodup
    ∧ ¬ (godownFeedIds
          (submitTruckEntry dbScenario "T" "incoming" "" [⟨0, 1⟩, ⟨0, 1⟩])).Nodup := by
  decide

/-- C3 (amended): the at-most-one-ledger-entry-per-feed invariant (no
duplicate `feedId` among `godownStock` docs) is preserved by warehouse
increase and decrease, by feed add/edit/delete for every input, and by
every truck movement submission whose items name pairwise-distinct feeds
(which the movement form guarantees by merging duplicate selections). -/
theorem godown_feedId_unique_preserved (db : DB) (f fid : Nat) (q price initialQty : Int)
    (tn ty dests name category : String) (items : List Item) (patch : FeedPatch)
    (hnd : (godownFeedIds db).Nodup) :
    (godownFeedIds (addOrIncreaseGodown db f q)).Nodup
    ∧ (∀ db', decreaseGodown db f q = .ok db' → (godownFeedIds db').Nodup)
    ∧ ((items.map Item.feedId).Nodup →
        (godownFeedIds (submitTruckEntry db tn ty dests items)).Nodup)
    ∧ (godownFeedIds (handleAddFeed db name category price initialQty)).Nodup
    ∧ (godownFeedIds (handleEditFeed db fid patch)).Nodup
    ∧ (godownFeedIds (handleDeleteFeed db fid)).Nodup := by
  refine ⟨?_, ?_, ?_, ?_, ?_, ?_⟩
  · exact addOrIncreaseGodown_nodup_feedIds db f q hnd
  · intro db' hok
    cases h : decreaseG db.godown f q with
    | none =>
        rw [decreaseGodown_eq_error db f q h] at hok
        exact Except.noConfusion hok
    | some g' =>
        rw [decreaseGodown_eq_ok db f q g' h] at hok
        injection hok with hok
        subst hok
        have hids := decreaseG_feedIds db.godown f q g' h
        unfold godownFeedIds
        simpa [hids] using hnd
  · intro hfd
    by_cases hg : (tn = "" ∨ items = [])
    · unfold submitTruckEntry
      rw [if_pos hg]
      exact hnd
    · simp only [submitTruckEntry, godownFeedIds]
      rw [if_neg hg]
      by_cases hty1 : ty = "incoming"
      · rw [if_pos hty1]
        rw [foldAddStale_feedIds items db.godown _]
        rw [List.nodup_append]
        refine ⟨hnd, ?_, ?_⟩
        · have hsub : List.Sublist
              ((items.filter (fun it =>
                (db.godown.find? (fun g => g.feedId == it.feedId)).isNone)).map Item.feedId)
              (items.map Item.feedId) :=
            (List.filter_sublist items).map Item.feedId
          exact hfd.sublist hsub
        · intro a ha hb
          rcases List.mem_map.mp ha with ⟨g, hgm, rfl⟩
          rcases List.mem_map.mp hb with ⟨it, hit, hfeq⟩
          have hguard := List.of_mem_filter hit
          rw [Option.isNone_iff_eq_none] at hguard
          have hnone := List.find?_eq_none.mp hguard g hgm
          exact hnone (beq_iff_eq.mpr hfeq.symm)
      · rw [if_neg hty1]
        by_cases hty2 : ty = "outgoing"
        · rw [if_pos hty2]
          rw [foldDecStale_feedIds items db.godown _]
          exact hnd
        · rw [if_neg hty2]
          exact hnd
  · simp only [handleAddFeed, godownFeedIds]
    by_cases hq : (0 : Int) < initialQty
    · rw [if_pos hq]
      rw [List.map_append, List.nodup_append]
      refine ⟨hnd, List.nodup_singleton _, ?_⟩
      intro a ha
      simp only [List.map_cons, List.map_nil, List.mem_singleton]
      intro hae
      rcases List.mem_map.mp ha with ⟨g, hg, rfl⟩
      exact absurd (hae ▸ godown_feedId_lt_freshId db g hg) (lt_irrefl _)
    · rw [if_neg hq]
      exact hnd
  · exact hnd
  · have hsub : List.Sublist (db.godown.filter (fun g => !(g.feedId == fid))) db.godown :=
      List.filter_sublist db.godown
    exact hnd.sublist (hsub.map StockEntry.feedId)

/-- C3 witness: the invariant hypothesis holds for `dbLedger`, and each
operation preserves it there (the movement's single item trivially names
distinct feeds). -/
theorem godown_feedId_unique_preserved_witness :
    ((godownFeedIds dbLedger).Nodup)
    ∧ ((godownFeedIds (addOrIncreaseGodown dbLedger 0 2)).Nodup
      ∧ (∀ db', decreaseGodown dbLedger 0 2 = .ok db' → (godownFeedIds db').Nodup)
      ∧ ((([⟨0, 1⟩] : List Item).map Item.feedId).Nodup →
          (godownFeedIds (submitTruckEntry dbLedger "T" "incoming" "" [⟨0, 1⟩])).Nodup)
      ∧ (godownFeedIds (handleAddFeed dbLedger "N" "Shrimp Feed" 5 3)).Nodup
      ∧ (godownFeedIds (handleEditFeed dbLedger 0 {})).Nodup
      ∧ (godownFeedIds (handleDeleteFeed dbLedger 0)).Nodup) :=
  ⟨by decide,
    godown_feedId_unique_preserved dbLedger 0 0 2 5 3 "T" "incoming" "" "N" "Shrimp Feed"
      [⟨0, 1⟩] {} (by decide)⟩

/-! C7: aggregation. -/

theorem categoryCountsAux_spec (db : DB) :
    ∀ (l : List StockEntry) (acc : String → Int) (c : String), c ∈ CATEGORIES →
      categoryCountsAux db acc l c
        = acc c + ((l.filter (fun s =>
            match findFeed db s.feedId with
            | some fd => fd.category == c
            | none => false)).map (fun s => s.quantity)).sum := by
  intro l
  induction l with
  | nil =>
      intro acc c _
      simp [categoryCountsAux]
  | cons s rest ih =>
      intro acc c hc
      cases hf : findFeed db s.feedId with
      | none =>
          simp only [categoryCountsAux, hf]
          rw [ih acc c hc, List.filter_cons]
          simp [hf]
      | some fd =>
          by_cases hin : CATEGORIES.contains fd.category
          · simp only [categoryCountsAux, hf, hin, if_true]
            rw [ih _ c hc, List.filter_cons]
            by_cases hcc : (fd.category == c) = true
            · have hcc' : (c == fd.category) = true := by
                rw [beq_iff_eq] at hcc ⊢
                exact hcc.symm
              simp only [hf, hcc, if_pos, hcc', List.map_cons, List.sum_cons]
              omega
            · have hcc' : ¬ ((c == fd.category) = true) := by
                rw [beq_iff_eq] at hcc ⊢
                exact fun h => hcc h.symm
              simp only [hf, hcc, Bool.false_eq_true, if_neg, if_false, hcc']
          · have hne : ¬ ((fd.category == c) = true) := by
              rw [beq_iff_eq]
              intro h
              exact hin (h ▸ List.elem_iff.mpr hc)
            have hin' : (CATEGORIES.contains fd.category) = false := by
              simpa using hin
            simp only [categoryCountsAux, hf, hin', Bool.false_eq_true, if_false]
            rw [ih acc c hc, List.filter_cons]
            simp [hf, hne]

theorem foldl_add_quantity (l : List StockEntry) :
    ∀ a : Int, l.foldl (fun acc s => acc + s.quantity) a
      = a + (l.map (fun s => s.quantity)).sum := by
  induction l with
  | nil => intro a; simp
  | cons s rest ih =>
      intro a
      simp only [List.foldl_cons, List.map_cons, List.sum_cons, ih]
      omega

/-- C7: for each of the three fixed categories, `categoryCounts` equals the
sum of warehouse quantities over the ledger entries whose feed resolves to
that category (entries for unresolvable or off-category feeds are excluded,
and feeds without an entry contribute nothing), while `totalBags` sums the
quantities of all ledger entries regardless of category. -/
theorem aggregateByCategory_spec (db : DB) (c : String) (hc : c ∈ CATEGORIES) :
    categoryCounts db c
      = ((db.godown.filter (fun s =>
          match findFeed db s.feedId with
          | some fd => fd.category == c
          | none => false)).map (fun s => s.quantity)).sum
    ∧ totalBags db = (db.godown.map (fun s => s.quantity)).sum := by
  constructor
  · have h := categoryCountsAux_spec db db.godown (fun _ => 0) c hc
    simpa [categoryCounts] using h
  · have h := foldl_add_quantity db.godown 0
    simpa [totalBags] using h

/-- C7 witness: concrete aggregation over a two-entry ledger with one
resolvable in-category feed and one dangling entry. -/
theorem aggregateByCategory_spec_witness :
    (("Shrimp Feed" : String) ∈ CATEGORIES)
    ∧ (categoryCounts dbAgg "Shrimp Feed"
        = ((dbAgg.godown.filter (fun s =>
            match findFeed dbAgg s.feedId with
            | some fd => fd.category == "Shrimp Feed"
            | none => false)).map (fun s => s.quantity)).sum
      ∧ totalBags dbAgg = (dbAgg.godown.map (fun s => s.quantity)).sum) :=
  ⟨by decide, aggregateByCategory_spec dbAgg "Shrimp Feed" (by decide)⟩

/-! Helpers for the truck-registry claims. -/

theorem find?_append_of_none {α : Type} (l₁ l₂ : List α) (p : α → Bool)
    (h : l₁.find? p = none) : (l₁ ++ l₂).find? p = l₂.find? p := by
  simp [List.find?_append, h]

theorem register_map_stockOf (l : List Truck) (tn : String) (st : Truck) (items : List Item)
    (h : l.find? (fun t => t.truckNumber == tn) = some st) :
    ((l.map (fun u => if u.id == st.id then { u with truckNumber := tn, stock := some items }
        else u)).find? (fun t => t.truckNumber == tn)).bind (fun t => t.stock)
      = some items := by
  induction l with
  | nil => rw [List.find?_nil] at h; exact Option.noConfusion h
  | cons x rest ih =>
      simp only [List.map_cons]
      by_cases hx : (x.truckNumber == tn) = true
      · have hstep : List.find? (fun t => t.truckNumber == tn) (x :: rest) = some x :=
          List.find?_cons_of_pos rest hx
        rw [hstep] at h
        injection h with h
        subst h
        rw [if_pos (beq_self_eq_true x.id)]
        simp only [List.find?_cons, beq_self_eq_true]
        rfl
      · have hstep : List.find? (fun t => t.truckNumber == tn) (x :: rest)
            = List.find? (fun t => t.truckNumber == tn) rest :=
          List.find?_cons_of_neg rest hx
        rw [hstep] at h
        have hxf : (x.truckNumber == tn) = false := by simpa using hx
        by_cases hxid : (x.id == st.id) = true
        · rw [if_pos hxid]
          simp only [List.find?_cons, beq_self_eq_true]
          rfl
        · rw [if_neg hxid]
          simp only [List.find?_cons, hxf]
          exact ih h

theorem find?_map_setStock (l : List Truck) (tn : String) (st : Truck) (s : List Item)
    (h : l.find? (fun t => t.truckNumber == tn) = some st) :
    (l.map (fun t => if t.id == st.id then { t with stock := some s } else t)).find?
        (fun t => t.truckNumber == tn) = some { st with stock := some s } := by
  induction l with
  | nil => rw [List.find?_nil] at h; exact Option.noConfusion h
  | cons x rest ih =>
      simp only [List.map_cons]
      by_cases hx : (x.truckNumber == tn) = true
      · have hstep : List.find? (fun t => t.truckNumber == tn) (x :: rest) = some x :=
          List.find?_cons_of_pos rest hx
        rw [hstep] at h
        injection h with h
        subst h
        rw [if_pos (beq_self_eq_true x.id)]
        simp only [List.find?_cons, hx]
      · have hstep : List.find? (fun t => t.truckNumber == tn) (x :: rest)
            = List.find? (fun t => t.truckNumber == tn) rest :=
          List.find?_cons_of_neg rest hx
        rw [hstep] at h
        have hxf : (x.truckNumber == tn) = false := by simpa using hx
        by_cases hxid : (x.id == st.id) = true
        · rw [if_pos hxid]
          simp only [List.find?_cons, hxf]
          exact ih h
        · rw [if_neg hxid]
          simp only [List.find?_cons, hxf]
          exact ih h

theorem map_setStock_twice (l : List Truck) (i : Nat) (s1 s2 : List Item) :
    (l.map (fun t => if t.id == i then { t with stock := some s1 } else t)).map
        (fun t => if t.id == i then { t with stock := some s2 } else t)
      = l.map (fun t => if t.id == i then { t with stock := some s2 } else t) := by
  induction l with
  | nil => rfl
  | cons x rest ih =>
      simp only [List.map_cons, ih]
      congr 1
      by_cases h : (x.id == i) = true <;> simp [h]

theorem registerLoad_stockOf (db : DB) (tn : String) (items : List Item)
    (h1 : tn ≠ "") (h2 : items ≠ []) :
    truckStockOf (registerSourceTruckLoad db tn items) tn = some items := by
  have hguard : ¬(tn = "" ∨ items = []) := not_or.mpr ⟨h1, h2⟩
  simp only [registerSourceTruckLoad, truckStockOf]
  rw [if_neg hguard]
  cases hfind : db.trucks.find? (fun t => t.truckNumber == tn) with
  | some t =>
      simp only [hfind]
      exact register_map_stockOf db.trucks tn t items hfind
  | none =>
      simp only [hfind]
      rw [find?_append_of_none db.trucks _ _ hfind]
      rw [List.find?_cons_of_pos]
      · rfl
      · exact beq_self_eq_true tn

/-- C9: `registerSourceTruckLoad` with non-empty arguments overwrites the
matched truck's onboard stock with exactly the supplied list (no merging),
creates a fresh truck record with that stock when no truck matches, and in
particular registering `its1` then `its2` for the same number leaves
exactly `its2`. -/
theorem registerLoad_overwrites_stock (db : DB) (tn : String)
    (items its1 its2 : List Item) (h1 : tn ≠ "") (h2 : items ≠ [])
    (h3 : its1 ≠ []) (h4 : its2 ≠ []) :
    truckStockOf (registerSourceTruckLoad db tn items) tn = some items
    ∧ (db.trucks.find? (fun t => t.truckNumber == tn) = none →
        (registerSourceTruckLoad db tn items).trucks
          = db.trucks ++
              [{ id := freshId db, truckNumber := tn, type := none, destinations := [],
                 items := none, stock := some items }])
    ∧ truckStockOf
        (registerSourceTruckLoad (registerSourceTruckLoad db tn its1) tn its2) tn
      = some its2 := by
  refine ⟨registerLoad_stockOf db tn items h1 h2, ?_,
    registerLoad_stockOf _ tn its2 h1 h4⟩
  intro hfind
  simp only [registerSourceTruckLoad]
  rw [if_neg (not_or.mpr ⟨h1, h2⟩)]
  simp only [hfind]

/-- C9 witness: registering [(0,10)] then [(3,5)] on a fresh store. -/
theorem registerLoad_overwrites_stock_witness :
    (("TRK2" : String) ≠ "" ∧ ([⟨0, 10⟩] : List Item) ≠ []
      ∧ ([⟨3, 5⟩] : List Item) ≠ [])
    ∧ (truckStockOf (registerSourceTruckLoad dbScenario "TRK2" [⟨0, 10⟩]) "TRK2"
        = some [⟨0, 10⟩]
      ∧ (dbScenario.trucks.find? (fun t => t.truckNumber == "TRK2") = none →
          (registerSourceTruckLoad dbScenario "TRK2" [⟨0, 10⟩]).trucks
            = dbScenario.trucks ++
                [{ id := freshId dbScenario, truckNumber := "TRK2", type := none,
                   destinations := [], items := none, stock := some [⟨0, 10⟩] }])
      ∧ truckStockOf
          (registerSourceTruckLoad (registerSourceTruckLoad dbScenario "TRK2" [⟨0, 10⟩])
            "TRK2" [⟨3, 5⟩]) "TRK2"
        = some [⟨3, 5⟩]) :=
  ⟨⟨by decide, by decide, by decide⟩,
    registerLoad_overwrites_stock dbScenario "TRK2" [⟨0, 10⟩] [⟨0, 10⟩] [⟨3, 5⟩]
      (by decide) (by decide) (by decide) (by decide)⟩

/-- C10: a direct transfer whose source and destination truck numbers are
equal, with the existing truck's stock covering every item, persists as the
truck's final onboard stock the destination-side working copy — the
original stock with every item's quantity added — so the source-side
deduction is lost (the destination write to the same document lands last). -/
theorem transfer_self_overwrites_deduction (db : DB) (tn : String) (items : List Item)
    (st : Truck) (s' d' : List Item) (h1 : tn ≠ "") (h2 : items ≠ [])
    (hfind : db.trucks.find? (fun t => t.truckNumber == tn) = some st)
    (hproc : processItems (st.stock.getD []) (st.stock.getD []) items = some (s', d')) :
    truckStockOf (transferFromSourceToDest db tn tn items) tn = some d'
    ∧ ∀ f, stockQty d' f = stockQty (st.stock.getD []) f + itemSum items f := by
  constructor
  · have hguard : ¬(tn = "" ∨ tn = "" ∨ items = []) := by
      push_neg
      exact ⟨h1, h1, h2⟩
    simp only [transferFromSourceToDest, truckStockOf]
    rw [if_neg hguard]
    simp only [hfind, hproc]
    rw [map_setStock_twice]
    rw [find?_map_setStock db.trucks tn st d' hfind]
    rfl
  · exact processItems_dest_qty items _ _ _ _ hproc

/-- C10 witness: self-transfer of 4 bags of feed 7 on a truck holding 5;
the final stock is 9 — the deduction is lost. -/
theorem transfer_self_overwrites_witness :
    (("TRK2" : String) ≠ "" ∧ ([⟨7, 4⟩] : List Item) ≠ []
      ∧ dbOneTruck.trucks.find? (fun t => t.truckNumber == "TRK2")
          = some ⟨1, "TRK2", none, [], none, some [⟨7, 5⟩]⟩
      ∧ processItems [⟨7, 5⟩] [⟨7, 5⟩] [⟨7, 4⟩] = some ([⟨7, 1⟩], [⟨7, 9⟩]))
    ∧ (truckStockOf (transferFromSourceToDest dbOneTruck "TRK2" "TRK2" [⟨7, 4⟩]) "TRK2"
        = some [⟨7, 9⟩]
      ∧ ∀ f, stockQty [⟨7, 9⟩] f
          = stockQty ((some [⟨7, 5⟩] : Option (List Item)).getD []) f
            + itemSum [⟨7, 4⟩] f) :=
  ⟨⟨by decide, by decide, by decide, by decide⟩,
    transfer_self_overwrites_deduction dbOneTruck "TRK2" [⟨7, 4⟩]
      ⟨1, "TRK2", none, [], none, some [⟨7, 5⟩]⟩ [⟨7, 1⟩] [⟨7, 9⟩]
      (by decide) (by decide) (by decide) (by decide)⟩

/-- C1 (amended): a direct transfer whose items fail validation leaves the
godown ledger, the transfer records, the logs, the feed catalog and every
existing truck document unchanged — but when no destination truck record
exists, the call has already created (and leaves behind) a destination
truck record with empty stock. -/
theorem transfer_failed_validation_effects (db : DB) (src dst : String)
    (items : List Item) (st : Truck)
    (h1 : src ≠ "") (h2 : dst ≠ "") (h3 : items ≠ [])
    (hfind : db.trucks.find? (fun t => t.truckNumber == src) = some st)
    (hfail : processItems (st.stock.getD []) (destStock0 db dst) items = none) :
    (transferFromSourceToDest db src dst items).godown = db.godown
    ∧ (transferFromSourceToDest db src dst items).transfers = db.transfers
    ∧ (transferFromSourceToDest db src dst items).logs = db.logs
    ∧ (transferFromSourceToDest db src dst items).feeds = db.feeds
    ∧ ((db.trucks.find? (fun t => t.truckNumber == dst)).isSome →
        (transferFromSourceToDest db src dst items).trucks = db.trucks)
    ∧ (db.trucks.find? (fun t => t.truckNumber == dst) = none →
        (transferFromSourceToDest db src dst items).trucks
          = db.trucks ++
              [{ id := freshId db, truckNumber := dst, type := none,
                 destinations := [], items := none, stock := some [] }]) := by
  have hguard : ¬(src = "" ∨ dst = "" ∨ items = []) := by
    push_neg
    exact ⟨h1, h2, h3⟩
  cases hdest : db.trucks.find? (fun t => t.truckNumber == dst) with
  | some t =>
      have hds : destStock0 db dst = t.stock.getD [] := by
        unfold destStock0
        rw [hdest]
      rw [hds] at hfail
      have heq : transferFromSourceToDest db src dst items = db := by
        simp only [transferFromSourceToDest]
        rw [if_neg hguard]
        simp only [hfind, hdest, hfail]
      rw [heq]
      exact ⟨rfl, rfl, rfl, rfl, fun _ => rfl,
        fun hn => absurd hn (by simp [hdest])⟩
  | none =>
      have hds : destStock0 db dst = [] := by
        unfold destStock0
        rw [hdest]
      rw [hds] at hfail
      have heq : transferFromSourceToDest db src dst items
          = { db with trucks := db.trucks ++
              [{ id := freshId db, truckNumber := dst, type := none,
                 destinations := [], items := none, stock := some [] }] } := by
        simp only [transferFromSourceToDest]
        rw [if_neg hguard]
        simp only [hfind, hdest, Option.getD_some, hfail]
      rw [heq]
      refine ⟨rfl, rfl, rfl, rfl, fun hs => ?_, fun _ => rfl⟩
      simp [hdest] at hs

/-- C1 amended witness: the failing transfer of the counterexample leaves
everything but the created destination record unchanged. -/
theorem transfer_failed_validation_effects_witness :
    (("TRK2" : String) ≠ "" ∧ ("TRK3" : String) ≠ "" ∧ ([⟨7, 10⟩] : List Item) ≠ []
      ∧ dbOneTruck.trucks.find? (fun t => t.truckNumber == "TRK2")
          = some ⟨1, "TRK2", none, [], none, some [⟨7, 5⟩]⟩
      ∧ processItems ((some [⟨7, 5⟩] : Option (List Item)).getD [])
          (destStock0 dbOneTruck "TRK3") [⟨7, 10⟩] = none)
    ∧ ((transferFromSourceToDest dbOneTruck "TRK2" "TRK3" [⟨7, 10⟩]).godown
        = dbOneTruck.godown
      ∧ (transferFromSourceToDest dbOneTruck "TRK2" "TRK3" [⟨7, 10⟩]).transfers
          = dbOneTruck.transfers
      ∧ (transferFromSourceToDest dbOneTruck "TRK2" "TRK3" [⟨7, 10⟩]).logs
          = dbOneTruck.logs
      ∧ (transferFromSourceToDest dbOneTruck "TRK2" "TRK3" [⟨7, 10⟩]).feeds
          = dbOneTruck.feeds
      ∧ ((dbOneTruck.trucks.find? (fun t => t.truckNumber == "TRK3")).isSome →
          (transferFromSourceToDest dbOneTruck "TRK2" "TRK3" [⟨7, 10⟩]).trucks
            = dbOneTruck.trucks)
      ∧ (dbOneTruck.trucks.find? (fun t => t.truckNumber == "TRK3") = none →
          (transferFromSourceToDest dbOneTruck "TRK2" "TRK3" [⟨7, 10⟩]).trucks
            = dbOneTruck.trucks ++
                [{ id := freshId dbOneTruck, truckNumber := "TRK3", type := none,
                   destinations := [], items := none, stock := some [] }])) :=
  ⟨⟨by decide, by decide, by decide, by decide, by decide⟩,
    transfer_failed_validation_effects dbOneTruck "TRK2" "TRK3" [⟨7, 10⟩]
      ⟨1, "TRK2", none, [], none, some [⟨7, 5⟩]⟩
      (by decide) (by decide) (by decide) (by decide) (by decide)⟩

end FeedApp
